import Mathlib

/-!
Verification development for the swap-build protocol of the octane repository.

The central function of the repository is `buildWhirlpoolsSwapToSOL`
(packages/core/src/actions/buildWhirlpoolsSwapToSOL.ts).  It is embedded
below as a pure Lean function over an explicit environment `Env` that
captures every external collaborator the TypeScript code talks to: the
key-value cache, the ledger RPC facade (genesis hash, account infos,
latest blockhash, fee estimation, simulation), the external routing
service (quote and swap-instruction endpoints) and the message-token
signer.  The function returns the result (success record or typed error)
together with the ordered trace of cache and network interactions, so
that statements about call ordering and about cache writes can be made
precisely.

Machine numbers are embedded as `Nat` / `Int`: the TypeScript code uses
BN (arbitrary-precision integers) for the amount arithmetic and
JavaScript numbers for fees; all fee values reachable in the claims are
far below 2^53, so exact integer arithmetic is the faithful model.
BN multiplication and division truncate toward zero, which is `Int.tdiv`.
-/

namespace Octane

/-- Account metadata of an instruction, as produced by the routing
service and consumed by the TransactionInstruction constructor. -/
structure AccountMeta where
  pubkey : String
  isSigner : Bool
  isWritable : Bool
  deriving DecidableEq, Repr

/-- Instructions assembled into the transaction message.  Opaque
instructions received from the routing service are kept as `raw`
records; the instructions the build creates itself through the SPL
token and system-program helpers are represented by dedicated
constructors carrying exactly the arguments the source passes. -/
inductive Instruction where
  | raw (programId : String) (accounts : List AccountMeta) (data : String)
  | createAssociatedTokenAccountIdempotent (payer associatedToken owner mint : String)
  | closeAccount (account destination authority : String)
  | transfer (fromPubkey toPubkey : String) (lamports : Nat)
  | burn (account mint owner : String) (amount : Nat)
  deriving DecidableEq, Repr

/-- True exactly for the burn instruction constructor. -/
def Instruction.isBurn : Instruction → Bool
  | Instruction.burn _ _ _ _ => true
  | _ => false

/-- Address lookup table account resolved from the chain; `stateData`
models the deserialized on-chain state opaquely. -/
structure ALTAccount where
  key : String
  stateData : String
  deriving DecidableEq, Repr

/-- Compiled v0 transaction message: fee payer, recent blockhash anchor,
the ordered instruction list and the resolved lookup tables. -/
structure MessageV0 where
  payerKey : String
  recentBlockhash : String
  instructions : List Instruction
  lookupTables : List ALTAccount
  deriving DecidableEq, Repr

/-- Values stored in the cache.  The program stores strings at
genesis keys and numeric timestamps at swap rate-guard keys. -/
inductive CacheVal where
  | str (s : String)
  | num (n : Int)
  deriving DecidableEq, Repr

/-- Quote returned by the routing service.  `outAmount` is the numeric
value of the outAmount string of the JSON response, which the source
reads through Number(quoteResponse.outAmount). -/
structure QuoteResponse where
  inputMint : String
  inAmount : String
  outputMint : String
  outAmount : Nat
  slippageBps : Nat
  deriving DecidableEq, Repr

/-- Instruction record as delivered by the swap-instructions endpoint.
`decodeOk` models whether deserialization of the record (public-key
parsing and base64 decoding inside deserializeInstruction) succeeds;
when it is false the build throws. -/
structure RawInstruction where
  programId : String
  accounts : List AccountMeta
  data : String
  decodeOk : Bool
  deriving DecidableEq, Repr

/-- Response of the swap-instructions endpoint: an optional error field
(tested for truthiness by the source), the compute-budget instructions,
the swap instruction and the lookup-table addresses. -/
structure SwapInstructionsResponse where
  error : Option String
  computeBudgetInstructions : List RawInstruction
  swapInstruction : RawInstruction
  addressLookupTableAddresses : List String
  deriving DecidableEq, Repr

/-- Typed failures of the build, one per throw site of the source. -/
inductive BuildError where
  | wrongCluster
  | invalidAmount
  | invalidFeeConfig
  | rateLimited
  | accountExists
  | routingError (msg : String)
  | decodeError
  | simulationError
  | signingError
  deriving DecidableEq, Repr

/-- Fee options passed to the build, mirroring the FeeOptions type of
the source (all numeric fields are JavaScript numbers). -/
structure FeeOptions where
  amount : Int
  sourceAccount : String
  destinationAccount : String
  transferFeeBp : Int
  burnFeeBp : Int
  deriving DecidableEq, Repr

/-- Successful result of the build: the compiled message (wrapped into a
VersionedTransaction by the source), the quote and the message token. -/
structure BuildResult where
  transaction : MessageV0
  quote : QuoteResponse
  messageToken : String
  deriving DecidableEq, Repr

/-- Trace events: each cache interaction and each network interaction
of the build, in execution order. -/
inductive Event where
  | cacheGet (key : String)
  | cacheSet (key : String) (value : CacheVal)
  | rpcGetGenesisHash
  | rpcGetAccountInfo (address : String)
  | fetchQuote (inputMint outputMint : String) (amount : Int) (slippageBps : Nat)
  | fetchSwapInstructions (user : String)
  | rpcGetMultipleAccountsInfo (addresses : List String)
  | rpcGetLatestBlockhash
  | rpcGetFeeForMessage
  | rpcSimulate
  deriving DecidableEq, Repr

/-- An event is a network call when it reaches the ledger RPC node or
the external routing service; cache interactions are not network calls. -/
def Event.isNetworkCall : Event → Bool
  | Event.cacheGet _ => false
  | Event.cacheSet _ _ => false
  | _ => true

/-- An event is a routing-service call when it hits the external
quote or swap-instructions endpoint. -/
def Event.isRoutingCall : Event → Bool
  | Event.fetchQuote _ _ _ _ => true
  | Event.fetchSwapInstructions _ => true
  | _ => false

/-- True for a cache write to the given key. -/
def Event.isCacheSetFor (key : String) : Event → Bool
  | Event.cacheSet k _ => k == key
  | _ => false

/-- Environment: every external collaborator of the build, as the data
it would answer with during this request. -/
structure Env where
  rpcEndpoint : String
  cache : String → Option CacheVal
  genesisHash : String
  now : Nat
  now2 : Nat
  accountInfo : String → Option String
  quoteResponse : QuoteResponse
  swapInstructions : SwapInstructionsResponse
  multiAccountInfo : String → Option String
  latestBlockhash : String
  feeFor : MessageV0 → Option Nat
  simulate : MessageV0 → Bool
  compileToken : MessageV0 → Option String

/-- Reading a string-typed value from the cache: the program stores only
strings under genesis keys, so a missing or non-string value reads as
absent. -/
def cacheGetStr (cache : String → Option CacheVal) (key : String) : Option String :=
  match cache key with
  | some (CacheVal.str s) => some s
  | _ => none

/-- Reading a number-typed value from the cache: the program stores only
numeric timestamps under swap keys, so a missing or non-numeric value
reads as absent. -/
def cacheGetNum (cache : String → Option CacheVal) (key : String) : Option Int :=
  match cache key with
  | some (CacheVal.num n) => some n
  | _ => none

/-- Genesis hash of the mainnet-beta cluster. Modelled from the spec:
isMainnetBetaCluster lives in packages/core/src/core (not under src/);
the spec requires the resolved genesis identity to match the expected
production cluster. -/
def MAINNET_BETA_GENESIS_HASH : String := "5eykt4UsFv8P8NJdTREpY1vzqKqZKvdpKuc147dw2N9d"

/-- Modelled from the spec: predicate deciding whether a genesis hash
identifies the mainnet-beta cluster (the function itself is in
packages/core/src/core, outside src/). -/
def isMainnetBetaCluster (genesisHash : String) : Bool :=
  genesisHash == MAINNET_BETA_GENESIS_HASH

/-- Associated token address derivation of the SPL token library,
modelled as an opaque deterministic injective encoding of the pair
(mint, owner).  The async and sync variants of the library compute the
same address, so a single function embeds both. -/
def getAssociatedTokenAddress (mint owner : String) : String :=
  "ata(" ++ mint ++ "," ++ owner ++ ")"

/-- Native SOL mint address (NATIVE_MINT of the SPL token library). -/
def NATIVE_MINT : String := "So11111111111111111111111111111111111111112"

/-- Rent-exempt balance of an associated token account, as hardcoded by
the source (LAMPORTS_PER_ATA). -/
def LAMPORTS_PER_ATA : Nat := 2039280

/-- Whether the cached genesis value lets the build skip the RPC query:
the source refetches when the cached value is absent or falsy (empty). -/
def genesisCached (env : Env) : Bool :=
  match cacheGetStr env.cache ("genesis/" ++ env.rpcEndpoint) with
  | some g => g != ""
  | none => false

/-- Genesis hash the build works with: the cached value when present and
truthy, otherwise the value fetched from the RPC node. -/
def resolvedGenesisHash (env : Env) : String :=
  match cacheGetStr env.cache ("genesis/" ++ env.rpcEndpoint) with
  | some g => if g = "" then env.genesisHash else g
  | none => env.genesisHash

/-- Fee-configuration guard of the source: with fee options present, a
negative configured fee amount is rejected. -/
def feeConfigInvalid (feeOptions : Option FeeOptions) : Bool :=
  match feeOptions with
  | some fo => decide (fo.amount < 0)
  | none => false

/-- Rate-guard test of the source: the stored timestamp must be truthy
(nonzero) and the elapsed time strictly below the window. -/
def rateGuardTriggered (env : Env) (key : String) (sameMintTimeout : Int) : Bool :=
  match cacheGetNum env.cache key with
  | some ts => (ts != 0) && decide ((env.now : Int) - ts < sameMintTimeout)
  | none => false

/-- Burn fee of the source: amount.muln(burnFeeBp).divn(10000) when the
burn fee basis points are truthy (nonzero), else zero.  BN division
truncates toward zero, hence Int.tdiv. -/
def burnFeeOf (feeOptions : Option FeeOptions) (a : Nat) : Int :=
  match feeOptions with
  | some fo => if fo.burnFeeBp ≠ 0 then Int.tdiv ((a : Int) * fo.burnFeeBp) 10000 else 0
  | none => 0

/-- Platform fee of the source, Math.round(Number(outAmount) * (250 / 10000)),
under exact arithmetic: rounding half up of outAmount * 250 / 10000. -/
def platformFeeOf (outAmount : Nat) : Nat :=
  (outAmount * 250 + 5000) / 10000

/-- Truthiness test of the error field of the swap-instructions
response: present and non-empty. -/
def routingReportedError (r : SwapInstructionsResponse) : Bool :=
  match r.error with
  | some e => e != ""
  | none => false

/-- Deserialization of one routing-service instruction record into a
TransactionInstruction; fails exactly when the record does not decode. -/
def deserializeInstruction (ri : RawInstruction) : Option Instruction :=
  if ri.decodeOk then some (Instruction.raw ri.programId ri.accounts ri.data) else none

/-- Deserialization of a list of instruction records, aborting at the
first failure, as the eager map over deserializeInstruction does. -/
def deserializeAll : List RawInstruction → Option (List Instruction)
  | [] => some []
  | ri :: rest =>
    match deserializeInstruction ri, deserializeAll rest with
    | some i, some irest => some (i :: irest)
    | _, _ => none

/-- Decoding of the full instruction bundle: all compute-budget
instructions and the swap instruction; any failure aborts the build. -/
def decodeBundle (r : SwapInstructionsResponse) : Option (List Instruction × Instruction) :=
  match deserializeAll r.computeBudgetInstructions with
  | none => none
  | some cbIxs =>
    match deserializeInstruction r.swapInstruction with
    | none => none
    | some swapIx => some (cbIxs, swapIx)

/-- Lookup-table resolution of the source: every address whose account
info is present contributes a deserialized lookup-table account, in
order; absent accounts are skipped. -/
def getAddressLookupTableAccounts (env : Env) (keys : List String) : List ALTAccount :=
  keys.filterMap fun k => (env.multiAccountInfo k).map fun d => { key := k, stateData := d }

/-- Burn instruction of the source: created when fee options are present
and the burn fee is strictly positive. -/
def feeBurnInstructionOf (feeOptions : Option FeeOptions) (sourceMint user : String)
    (burnFee : Int) : Option Instruction :=
  match feeOptions with
  | some fo =>
    if 0 < burnFee then
      some (Instruction.burn fo.sourceAccount sourceMint user burnFee.toNat)
    else none
  | none => none

/-- Cleanup instruction group of the source: close the native holding
account back to the user, transfer the given lamports from the user to
the fee payer, then the burn instruction when one exists. -/
def cleanupInstructions (nativeAta user feePayer : String) (lamports : Nat)
    (feeBurnInstruction : Option Instruction) : List Instruction :=
  [Instruction.closeAccount nativeAta user user,
   Instruction.transfer user feePayer lamports] ++ feeBurnInstruction.toList

/-- Burn tail of the cleanup group: the singleton burn instruction when
one is created, else nothing. -/
def burnTailOf (feeOptions : Option FeeOptions) (sourceMint user : String)
    (a : Nat) : List Instruction :=
  (feeBurnInstructionOf feeOptions sourceMint user (burnFeeOf feeOptions a)).toList

/-- Two-pass message compilation of the source: the first message uses a
cleanup transfer of rent plus platform fee; the ledger fee measured for
that message (zero when the query reports null) is folded into the
cleanup transfer of the second message.  Both messages share the
compute-budget prefix, setup instruction, swap instruction and lookup
tables.  Returns none exactly when the bundle fails to decode. -/
def swapMessages (env : Env) (feePayer user sourceMint : String) (a : Nat)
    (feeOptions : Option FeeOptions) : Option (MessageV0 × MessageV0) :=
  match decodeBundle env.swapInstructions with
  | none => none
  | some (cbIxs, swapIx) =>
    let alts := getAddressLookupTableAccounts env env.swapInstructions.addressLookupTableAddresses
    let nativeAta := getAssociatedTokenAddress NATIVE_MINT user
    let setupAlternateIx :=
      Instruction.createAssociatedTokenAccountIdempotent feePayer nativeAta user NATIVE_MINT
    let burnFee := burnFeeOf feeOptions a
    let feeBurnInstruction := feeBurnInstructionOf feeOptions sourceMint user burnFee
    let platformFee := platformFeeOf env.quoteResponse.outAmount
    let m1 : MessageV0 :=
      { payerKey := feePayer, recentBlockhash := env.latestBlockhash,
        instructions := cbIxs ++ [setupAlternateIx, swapIx] ++
          cleanupInstructions nativeAta user feePayer (LAMPORTS_PER_ATA + platformFee)
            feeBurnInstruction,
        lookupTables := alts }
    let networkFee : Nat := (env.feeFor m1).getD 0
    let m2 : MessageV0 :=
      { payerKey := feePayer, recentBlockhash := env.latestBlockhash,
        instructions := cbIxs ++ [setupAlternateIx, swapIx] ++
          cleanupInstructions nativeAta user feePayer
            (LAMPORTS_PER_ATA + platformFee + networkFee) feeBurnInstruction,
        lookupTables := alts }
    some (m1, m2)

/-- Embedding of buildWhirlpoolsSwapToSOL: the guard sequence, the
two-pass compilation, simulation, token signing and the final rate-guard
write, returning the result together with the interaction trace. -/
def buildWhirlpoolsSwapToSOL (env : Env) (feePayer user sourceMint : String)
    (amount : Int) (sameMintTimeout : Int) (feeOptions : Option FeeOptions) :
    Except BuildError BuildResult × List Event :=
  let genesisHashKey := "genesis/" ++ env.rpcEndpoint
  let ev0 : List Event :=
    if genesisCached env then [Event.cacheGet genesisHashKey]
    else [Event.cacheGet genesisHashKey, Event.rpcGetGenesisHash,
          Event.cacheSet genesisHashKey (CacheVal.str env.genesisHash)]
  if isMainnetBetaCluster (resolvedGenesisHash env) = false then
    (Except.error BuildError.wrongCluster, ev0)
  else if amount ≤ 0 then
    (Except.error BuildError.invalidAmount, ev0)
  else if feeConfigInvalid feeOptions = true then
    (Except.error BuildError.invalidFeeConfig, ev0)
  else
    let key := "swap/" ++ user ++ "/" ++ sourceMint
    let ev1 := ev0 ++ [Event.cacheGet key]
    if rateGuardTriggered env key sameMintTimeout = true then
      (Except.error BuildError.rateLimited, ev1)
    else
      let associatedSOLAddress := getAssociatedTokenAddress NATIVE_MINT user
      let ev2 := ev1 ++ [Event.rpcGetAccountInfo associatedSOLAddress]
      if (env.accountInfo associatedSOLAddress).isSome = true then
        (Except.error BuildError.accountExists, ev2)
      else
        let a : Nat := amount.toNat
        let burnFee : Int := burnFeeOf feeOptions a
        let swapAmount : Int := (a : Int) - burnFee
        let ev3 := ev2 ++ [Event.fetchQuote sourceMint NATIVE_MINT swapAmount 1000]
        let ev4 := ev3 ++ [Event.fetchSwapInstructions user]
        if routingReportedError env.swapInstructions = true then
          (Except.error (BuildError.routingError (env.swapInstructions.error.getD "")), ev4)
        else
          let ev5 := ev4 ++
            [Event.rpcGetMultipleAccountsInfo env.swapInstructions.addressLookupTableAddresses,
             Event.rpcGetLatestBlockhash]
          match swapMessages env feePayer user sourceMint a feeOptions with
          | none => (Except.error BuildError.decodeError, ev5)
          | some (_, m2) =>
            let ev7 := ev5 ++ [Event.rpcGetFeeForMessage, Event.rpcSimulate]
            if env.simulate m2 = false then
              (Except.error BuildError.simulationError, ev7)
            else
              match env.compileToken m2 with
              | none => (Except.error BuildError.signingError, ev7)
              | some tok =>
                (Except.ok { transaction := m2, quote := env.quoteResponse, messageToken := tok },
                 ev7 ++ [Event.cacheSet key (CacheVal.num (env.now2 : Int))])

/-- Error projection of a build outcome. -/
def errorOf (p : Except BuildError BuildResult × List Event) : Option BuildError :=
  match p.1 with
  | Except.error e => some e
  | Except.ok _ => none

/-- Success flag of a build outcome. -/
def resultIsOk : Except BuildError BuildResult → Bool
  | Except.ok _ => true
  | Except.error _ => false

/-- Interaction trace of a successful build: the genesis lookup (with
the RPC fetch and write-back when uncached), the rate-guard read, the
holding-account probe, the two routing-service calls, the lookup-table
batch fetch, the blockhash fetch, the fee query, the simulation, and
the final rate-guard write. -/
def buildSuccessTrace (env : Env) (user sourceMint : String) (amount : Int)
    (feeOptions : Option FeeOptions) : List Event :=
  (if genesisCached env then [Event.cacheGet ("genesis/" ++ env.rpcEndpoint)]
   else [Event.cacheGet ("genesis/" ++ env.rpcEndpoint), Event.rpcGetGenesisHash,
         Event.cacheSet ("genesis/" ++ env.rpcEndpoint) (CacheVal.str env.genesisHash)]) ++
  [Event.cacheGet ("swap/" ++ user ++ "/" ++ sourceMint),
   Event.rpcGetAccountInfo (getAssociatedTokenAddress NATIVE_MINT user),
   Event.fetchQuote sourceMint NATIVE_MINT
     ((amount.toNat : Int) - burnFeeOf feeOptions amount.toNat) 1000,
   Event.fetchSwapInstructions user,
   Event.rpcGetMultipleAccountsInfo env.swapInstructions.addressLookupTableAddresses,
   Event.rpcGetLatestBlockhash, Event.rpcGetFeeForMessage, Event.rpcSimulate,
   Event.cacheSet ("swap/" ++ user ++ "/" ++ sourceMint) (CacheVal.num (env.now2 : Int))]

/-- Concrete quote used by the witness environments. -/
def happyQuote : QuoteResponse :=
  { inputMint := "mintX", inAmount := "1000000",
    outputMint := NATIVE_MINT, outAmount := 400000, slippageBps := 1000 }

/-- Concrete swap instruction record used by the witness environments. -/
def happySwapIx : RawInstruction :=
  { programId := "swapProg", accounts := [], data := "d", decodeOk := true }

/-- Concrete swap-instructions response used by the witness environments. -/
def happyBundle : SwapInstructionsResponse :=
  { error := none, computeBudgetInstructions := [], swapInstruction := happySwapIx,
    addressLookupTableAddresses := [] }

/-- Concrete environment on which the build succeeds: the genesis hash is
cached, no rate-guard entry exists, the native holding account is absent,
the routing service answers, the fee query reports 5000 lamports,
simulation passes and the token signer answers. -/
def happyEnv : Env :=
  { rpcEndpoint := "ep",
    cache := fun k =>
      if k = "genesis/ep" then some (CacheVal.str MAINNET_BETA_GENESIS_HASH) else none,
    genesisHash := MAINNET_BETA_GENESIS_HASH,
    now := 10, now2 := 11,
    accountInfo := fun _ => none,
    quoteResponse := happyQuote,
    swapInstructions := happyBundle,
    multiAccountInfo := fun _ => none,
    latestBlockhash := "bh",
    feeFor := fun _ => some 5000,
    simulate := fun _ => true,
    compileToken := fun _ => some "tok" }

/-- Native holding account address of the witness user. -/
def happyAta : String := getAssociatedTokenAddress NATIVE_MINT "alice"

/-- First-pass message the witness environment compiles: cleanup
transfer of rent plus the platform fee of 10000 lamports. -/
def happyM1 : MessageV0 :=
  { payerKey := "fp", recentBlockhash := "bh",
    instructions :=
      [Instruction.createAssociatedTokenAccountIdempotent "fp" happyAta "alice" NATIVE_MINT,
       Instruction.raw "swapProg" [] "d",
       Instruction.closeAccount happyAta "alice" "alice",
       Instruction.transfer "alice" "fp" 2049280],
    lookupTables := [] }

/-- Final message the witness environment compiles: the measured network
fee of 5000 lamports folded into the cleanup transfer. -/
def happyM2 : MessageV0 :=
  { payerKey := "fp", recentBlockhash := "bh",
    instructions :=
      [Instruction.createAssociatedTokenAccountIdempotent "fp" happyAta "alice" NATIVE_MINT,
       Instruction.raw "swapProg" [] "d",
       Instruction.closeAccount happyAta "alice" "alice",
       Instruction.transfer "alice" "fp" 2054280],
    lookupTables := [] }

/-- Result of the successful witness build. -/
def happyResult : BuildResult :=
  { transaction := happyM2, quote := happyQuote, messageToken := "tok" }

/-- Trace of the successful witness build. -/
def happyTrace : List Event :=
  [Event.cacheGet "genesis/ep", Event.cacheGet "swap/alice/mintX",
   Event.rpcGetAccountInfo happyAta,
   Event.fetchQuote "mintX" NATIVE_MINT 1000000 1000,
   Event.fetchSwapInstructions "alice",
   Event.rpcGetMultipleAccountsInfo [], Event.rpcGetLatestBlockhash,
   Event.rpcGetFeeForMessage, Event.rpcSimulate,
   Event.cacheSet "swap/alice/mintX" (CacheVal.num 11)]

/-- Environment with an empty cache: the genesis hash must be fetched
from the RPC node before any request-level guard runs. -/
def uncachedEnv : Env := { happyEnv with cache := fun _ => none }

/-- Environment whose rate-guard entry stores the timestamp 0: the entry
exists and the window has not elapsed, yet the guard does not fire. -/
def zeroTsEnv : Env :=
  { happyEnv with
    cache := fun k =>
      if k = "genesis/ep" then some (CacheVal.str MAINNET_BETA_GENESIS_HASH)
      else if k = "swap/alice/mintX" then some (CacheVal.num 0)
      else none,
    now := 1000 }

/-- Environment with a fresh rate-guard entry inside the throttle
window. -/
def throttledEnv : Env :=
  { happyEnv with
    cache := fun k =>
      if k = "genesis/ep" then some (CacheVal.str MAINNET_BETA_GENESIS_HASH)
      else if k = "swap/alice/mintX" then some (CacheVal.num 100)
      else none,
    now := 1000 }

/-- Environment with a rate-guard entry whose window has elapsed. -/
def elapsedEnv : Env :=
  { happyEnv with
    cache := fun k =>
      if k = "genesis/ep" then some (CacheVal.str MAINNET_BETA_GENESIS_HASH)
      else if k = "swap/alice/mintX" then some (CacheVal.num 100)
      else none,
    now := 5000 }

/-- Environment whose ledger fee query reports null. -/
def nullFeeEnv : Env := { happyEnv with feeFor := fun _ => none }

/-- Result of the successful build against the null-fee environment:
both passes compile the same message. -/
def nullFeeResult : BuildResult :=
  { transaction := happyM1, quote := happyQuote, messageToken := "tok" }

/-- Fee options whose burn fee truncates to zero at small amounts. -/
def tinyBurnFeeOptions : FeeOptions :=
  { amount := 5, sourceAccount := "src", destinationAccount := "dst",
    transferFeeBp := 0, burnFeeBp := 3 }

/-- Fee options with 100 burn basis points, matching the worked example
of the specification. -/
def percentBurnFeeOptions : FeeOptions :=
  { amount := 0, sourceAccount := "src", destinationAccount := "dst",
    transferFeeBp := 7, burnFeeBp := 100 }

/-- Result of the successful witness build with the one-percent burn
fee at amount 10000: the burn instruction for 100 units closes the
message. -/
def percentBurnResult : BuildResult :=
  { transaction :=
      { payerKey := "fp", recentBlockhash := "bh",
        instructions :=
          [Instruction.createAssociatedTokenAccountIdempotent "fp" happyAta "alice" NATIVE_MINT,
           Instruction.raw "swapProg" [] "d",
           Instruction.closeAccount happyAta "alice" "alice",
           Instruction.transfer "alice" "fp" 2054280,
           Instruction.burn "src" "mintX" "alice" 100],
        lookupTables := [] },
    quote := happyQuote, messageToken := "tok" }

/-! ## Helper lemmas -/

theorem genesis_key_ne_swap_key (ep u m : String) :
    ("genesis/" ++ ep) ≠ ("swap/" ++ u ++ "/" ++ m) := by
  intro h
  have h2 := congrArg String.data h
  simp only [String.data_append] at h2
  simp at h2

@[simp]
theorem isCacheSetFor_genesis (ep u m : String) (v : CacheVal) :
    Event.isCacheSetFor ("swap/" ++ u ++ "/" ++ m)
      (Event.cacheSet ("genesis/" ++ ep) v) = false := by
  simp only [Event.isCacheSetFor, beq_eq_false_iff_ne, ne_eq]
  exact genesis_key_ne_swap_key ep u m

/-! ## C2 -/

/-- C2 (amended): for every request with amount at most zero on an
environment whose resolved genesis hash is the mainnet one, the build
fails with the invalid-amount error; no routing-service call is made,
the only network call possibly made before the failure is the
genesis-hash ledger RPC, and when the genesis hash is cached no network
call at all is made. -/
theorem c2_invalid_amount_before_routing (env : Env) (feePayer user sourceMint : String)
    (amount sameMintTimeout : Int) (feeOptions : Option FeeOptions)
    (hamt : amount ≤ 0)
    (hgen : isMainnetBetaCluster (resolvedGenesisHash env) = true) :
    (buildWhirlpoolsSwapToSOL env feePayer user sourceMint amount sameMintTimeout feeOptions).1
      = Except.error BuildError.invalidAmount ∧
    (buildWhirlpoolsSwapToSOL env feePayer user sourceMint amount sameMintTimeout feeOptions).2.any
      Event.isRoutingCall = false ∧
    (buildWhirlpoolsSwapToSOL env feePayer user sourceMint amount sameMintTimeout feeOptions).2.all
      (fun e => !e.isNetworkCall || e == Event.rpcGetGenesisHash) = true ∧
    (genesisCached env = true →
      (buildWhirlpoolsSwapToSOL env feePayer user sourceMint amount sameMintTimeout
        feeOptions).2.any Event.isNetworkCall = false) := by
  have hb : buildWhirlpoolsSwapToSOL env feePayer user sourceMint amount sameMintTimeout feeOptions
      = (Except.error BuildError.invalidAmount,
         if genesisCached env then [Event.cacheGet ("genesis/" ++ env.rpcEndpoint)]
         else [Event.cacheGet ("genesis/" ++ env.rpcEndpoint), Event.rpcGetGenesisHash,
               Event.cacheSet ("genesis/" ++ env.rpcEndpoint) (CacheVal.str env.genesisHash)]) := by
    simp only [buildWhirlpoolsSwapToSOL]
    rw [if_neg (by simp [hgen]), if_pos hamt]
  rw [hb]
  cases hgc : genesisCached env <;>
    simp [Event.isRoutingCall, Event.isNetworkCall]

/-- C2 counterexample: with the genesis hash uncached, a request with
amount zero still fails with the invalid-amount error, but the
genesis-hash ledger RPC has already been made, so the failure is not
before every network call. -/
theorem c2_counterexample :
    (buildWhirlpoolsSwapToSOL uncachedEnv "fp" "alice" "mintX" 0 3000 none).1
      = Except.error BuildError.invalidAmount ∧
    (buildWhirlpoolsSwapToSOL uncachedEnv "fp" "alice" "mintX" 0 3000 none).2.any
      Event.isNetworkCall = true :=
  ⟨rfl, rfl⟩

/-- Witness for the amended C2 theorem at a concrete input. -/
theorem c2_witness :
    ((0 : Int) ≤ 0) ∧
    isMainnetBetaCluster (resolvedGenesisHash happyEnv) = true ∧
    (buildWhirlpoolsSwapToSOL happyEnv "fp" "alice" "mintX" 0 3000 none).1
      = Except.error BuildError.invalidAmount ∧
    (buildWhirlpoolsSwapToSOL happyEnv "fp" "alice" "mintX" 0 3000 none).2.any
      Event.isRoutingCall = false ∧
    (buildWhirlpoolsSwapToSOL happyEnv "fp" "alice" "mintX" 0 3000 none).2.any
      Event.isNetworkCall = false := by
  have h := c2_invalid_amount_before_routing happyEnv "fp" "alice" "mintX" 0 3000 none
    (le_refl 0) rfl
  exact ⟨le_refl 0, rfl, h.1, h.2.1, h.2.2.2 rfl⟩

/-! ## C4 -/

/-- C4 (amended): with the earlier guards passing, a rate-guard entry
holding a nonzero timestamp within the throttle window makes the build
fail with the rate-limited error, and once the window has elapsed the
build proceeds past the guard (it cannot fail rate-limited).  An entry
storing the timestamp zero is treated as absent by the source
(JavaScript truthiness of the cached number), which is the single
correction to the claim. -/
theorem c4_rate_guard (env : Env) (feePayer user sourceMint : String)
    (amount sameMintTimeout : Int) (feeOptions : Option FeeOptions) (ts : Int)
    (hgen : isMainnetBetaCluster (resolvedGenesisHash env) = true)
    (hamt : 0 < amount)
    (hfee : feeConfigInvalid feeOptions = false)
    (hts : cacheGetNum env.cache ("swap/" ++ user ++ "/" ++ sourceMint) = some ts) :
    (ts ≠ 0 → (env.now : Int) - ts < sameMintTimeout →
      (buildWhirlpoolsSwapToSOL env feePayer user sourceMint amount sameMintTimeout feeOptions).1
        = Except.error BuildError.rateLimited) ∧
    (sameMintTimeout ≤ (env.now : Int) - ts →
      (buildWhirlpoolsSwapToSOL env feePayer user sourceMint amount sameMintTimeout feeOptions).1
        ≠ Except.error BuildError.rateLimited) := by
  constructor
  · intro h0 hwin
    have hrg : rateGuardTriggered env ("swap/" ++ user ++ "/" ++ sourceMint)
        sameMintTimeout = true := by
      simp [rateGuardTriggered, hts, h0, hwin]
    simp only [buildWhirlpoolsSwapToSOL]
    rw [if_neg (by simp [hgen]), if_neg (not_le.mpr hamt), if_neg (by simp [hfee]),
        if_pos hrg]
  · intro helap
    have hrg : rateGuardTriggered env ("swap/" ++ user ++ "/" ++ sourceMint)
        sameMintTimeout = false := by
      simp [rateGuardTriggered, hts, not_lt.mpr helap]
    simp only [buildWhirlpoolsSwapToSOL]
    rw [if_neg (by simp [hgen]), if_neg (not_le.mpr hamt), if_neg (by simp [hfee]),
        if_neg (by simp [hrg])]
    split
    · simp
    · split
      · simp
      · split
        · simp
        · split
          · simp
          · split
            · simp
            · simp

/-- C4 counterexample: a rate-guard entry exists with stored timestamp
zero and the window has not elapsed, yet the build does not fail with
the rate-limited error: it succeeds. -/
theorem c4_counterexample :
    cacheGetNum zeroTsEnv.cache "swap/alice/mintX" = some 0 ∧
    ((zeroTsEnv.now : Int) - 0 < 3000) ∧
    (buildWhirlpoolsSwapToSOL zeroTsEnv "fp" "alice" "mintX" 1000000 3000 none).1
      = Except.ok happyResult :=
  ⟨rfl, by decide, rfl⟩

/-- Witness for the amended C4 theorem: a nonzero in-window entry is
throttled, and an elapsed entry is not. -/
theorem c4_witness :
    isMainnetBetaCluster (resolvedGenesisHash throttledEnv) = true ∧
    ((0 : Int) < 1000000) ∧
    feeConfigInvalid none = false ∧
    cacheGetNum throttledEnv.cache "swap/alice/mintX" = some 100 ∧
    (buildWhirlpoolsSwapToSOL throttledEnv "fp" "alice" "mintX" 1000000 3000 none).1
      = Except.error BuildError.rateLimited ∧
    (buildWhirlpoolsSwapToSOL elapsedEnv "fp" "alice" "mintX" 1000000 3000 none).1
      ≠ Except.error BuildError.rateLimited := by
  refine ⟨rfl, by decide, rfl, rfl, ?_, ?_⟩
  · exact (c4_rate_guard throttledEnv "fp" "alice" "mintX" 1000000 3000 none 100 rfl
      (by decide) rfl rfl).1 (by decide) (by decide)
  · exact (c4_rate_guard elapsedEnv "fp" "alice" "mintX" 1000000 3000 none 100 rfl
      (by decide) rfl rfl).2 (by decide)

/-- Elimination principle for a successful build: success pins the
compiled messages, the token, the simulation outcome, the returned
record and the final rate-guard write. -/
theorem build_ok_elim (env : Env) (feePayer user sourceMint : String)
    (amount sameMintTimeout : Int) (feeOptions : Option FeeOptions)
    (r : BuildResult) (tr : List Event)
    (hok : buildWhirlpoolsSwapToSOL env feePayer user sourceMint amount sameMintTimeout feeOptions
      = (Except.ok r, tr)) :
    ∃ m1 tok,
      swapMessages env feePayer user sourceMint amount.toNat feeOptions
        = some (m1, r.transaction) ∧
      env.compileToken r.transaction = some tok ∧
      env.simulate r.transaction = true ∧
      r.quote = env.quoteResponse ∧ r.messageToken = tok ∧
      tr = buildSuccessTrace env user sourceMint amount feeOptions := by
  simp only [buildWhirlpoolsSwapToSOL] at hok
  repeat' split at hok
  any_goals exact Except.noConfusion (congrArg Prod.fst hok)
  all_goals {
    rename_i x1 m1 m2 hmsg hsim x2 tok htok hgc
    injection hok with hr htr
    injection hr with hr
    subst hr
    refine ⟨m1, tok, hmsg, htok, by simpa using hsim, rfl, rfl, ?_⟩
    rw [← htr]
    simp [buildSuccessTrace, hgc] }

/-- Elimination principle for a compiled message pair: both messages are
pinned to the decoded bundle, the shared setup and cleanup shape, and
the measured network fee folded into the second transfer. -/
theorem swapMessages_elim (env : Env) (feePayer user sourceMint : String) (a : Nat)
    (feeOptions : Option FeeOptions) (m1 m2 : MessageV0)
    (hm : swapMessages env feePayer user sourceMint a feeOptions = some (m1, m2)) :
    ∃ cbIxs swapIx,
      decodeBundle env.swapInstructions = some (cbIxs, swapIx) ∧
      m1 = { payerKey := feePayer, recentBlockhash := env.latestBlockhash,
             instructions := cbIxs ++
               [Instruction.createAssociatedTokenAccountIdempotent feePayer
                  (getAssociatedTokenAddress NATIVE_MINT user) user NATIVE_MINT, swapIx] ++
               cleanupInstructions (getAssociatedTokenAddress NATIVE_MINT user) user feePayer
                 (LAMPORTS_PER_ATA + platformFeeOf env.quoteResponse.outAmount)
                 (feeBurnInstructionOf feeOptions sourceMint user (burnFeeOf feeOptions a)),
             lookupTables := getAddressLookupTableAccounts env
               env.swapInstructions.addressLookupTableAddresses } ∧
      m2 = { payerKey := feePayer, recentBlockhash := env.latestBlockhash,
             instructions := cbIxs ++
               [Instruction.createAssociatedTokenAccountIdempotent feePayer
                  (getAssociatedTokenAddress NATIVE_MINT user) user NATIVE_MINT, swapIx] ++
               cleanupInstructions (getAssociatedTokenAddress NATIVE_MINT user) user feePayer
                 (LAMPORTS_PER_ATA + platformFeeOf env.quoteResponse.outAmount +
                   (env.feeFor m1).getD 0)
                 (feeBurnInstructionOf feeOptions sourceMint user (burnFeeOf feeOptions a)),
             lookupTables := getAddressLookupTableAccounts env
               env.swapInstructions.addressLookupTableAddresses } := by
  simp only [swapMessages] at hm
  split at hm
  · exact Option.noConfusion hm
  · rename_i x cbIxs swapIx hdec
    injection hm with hm
    injection hm with hm1 hm2
    refine ⟨cbIxs, swapIx, hdec, hm1.symm, ?_⟩
    rw [← hm1]
    exact hm2.symm

/-- Every build that fails never writes the rate-guard key: the only
cache write an error trace can contain is the genesis write-back. -/
theorem build_error_trace (env : Env) (feePayer user sourceMint : String)
    (amount sameMintTimeout : Int) (feeOptions : Option FeeOptions)
    (e : BuildError) (tr : List Event)
    (herr : buildWhirlpoolsSwapToSOL env feePayer user sourceMint amount sameMintTimeout
      feeOptions = (Except.error e, tr)) :
    tr.any (Event.isCacheSetFor ("swap/" ++ user ++ "/" ++ sourceMint)) = false := by
  simp only [buildWhirlpoolsSwapToSOL] at herr
  repeat' split at herr
  any_goals exact Except.noConfusion (congrArg Prod.fst herr)
  all_goals {
    injection herr with h1 h2
    subst h2
    simp [Event.isCacheSetFor, genesis_key_ne_swap_key] }

/-- A deserialized instruction is a raw record, never a burn. -/
theorem deserialize_no_burn (ri : RawInstruction) (i : Instruction)
    (h : deserializeInstruction ri = some i) : i.isBurn = false := by
  simp only [deserializeInstruction] at h
  split at h
  · injection h with h
    rw [← h]
    rfl
  · exact Option.noConfusion h

/-- Instructions produced by deserializing a full record list are never
burns. -/
theorem deserializeAll_no_burn (l : List RawInstruction) (cb : List Instruction)
    (h : deserializeAll l = some cb) : ∀ i ∈ cb, i.isBurn = false := by
  induction l generalizing cb with
  | nil =>
    injection h with h
    subst h
    intro i hi
    exact absurd hi (List.not_mem_nil i)
  | cons hd tl ih =>
    simp only [deserializeAll] at h
    split at h
    · rename_i i0 irest hhd htl
      injection h with h
      subst h
      intro i hi
      rcases List.mem_cons.mp hi with hcase | hcase
      · rw [hcase]
        exact deserialize_no_burn hd i0 hhd
      · exact ih irest htl i hcase
    · exact Option.noConfusion h

/-- A decoded bundle contains no burn instruction. -/
theorem decodeBundle_no_burn (resp : SwapInstructionsResponse)
    (cb : List Instruction) (sw : Instruction)
    (h : decodeBundle resp = some (cb, sw)) :
    (∀ i ∈ cb, i.isBurn = false) ∧ sw.isBurn = false := by
  simp only [decodeBundle] at h
  split at h
  · exact Option.noConfusion h
  · rename_i cbIxs hcb
    split at h
    · exact Option.noConfusion h
    · rename_i swapIx hsw
      injection h with h
      injection h with h1 h2
      subst h1
      subst h2
      exact ⟨deserializeAll_no_burn resp.computeBudgetInstructions _ hcb,
             deserialize_no_burn resp.swapInstruction _ hsw⟩

/-- The successful trace ends with the rate-guard write. -/
theorem buildSuccessTrace_getLast (env : Env) (user sourceMint : String)
    (amount : Int) (feeOptions : Option FeeOptions) :
    (buildSuccessTrace env user sourceMint amount feeOptions).getLast?
      = some (Event.cacheSet ("swap/" ++ user ++ "/" ++ sourceMint)
          (CacheVal.num (env.now2 : Int))) := by
  cases hgc : genesisCached env <;> simp [buildSuccessTrace, hgc]

/-- The successful trace contains the rate-guard write. -/
theorem buildSuccessTrace_any_set (env : Env) (user sourceMint : String)
    (amount : Int) (feeOptions : Option FeeOptions) :
    (buildSuccessTrace env user sourceMint amount feeOptions).any
      (Event.isCacheSetFor ("swap/" ++ user ++ "/" ++ sourceMint)) = true := by
  cases hgc : genesisCached env <;> simp [buildSuccessTrace, hgc, Event.isCacheSetFor]

/-! ## C3 -/

/-- C3: the rate-guard cache key swap/user/sourceMint is written exactly
when the build succeeds, and on success the write is the final
interaction of the build; every failing build leaves the key
unwritten. -/
theorem c3_guard_written_only_on_success (env : Env) (feePayer user sourceMint : String)
    (amount sameMintTimeout : Int) (feeOptions : Option FeeOptions)
    (res : Except BuildError BuildResult) (tr : List Event)
    (h : buildWhirlpoolsSwapToSOL env feePayer user sourceMint amount sameMintTimeout feeOptions
      = (res, tr)) :
    tr.any (Event.isCacheSetFor ("swap/" ++ user ++ "/" ++ sourceMint)) = resultIsOk res ∧
    (resultIsOk res = true →
      tr.getLast? = some (Event.cacheSet ("swap/" ++ user ++ "/" ++ sourceMint)
        (CacheVal.num (env.now2 : Int)))) := by
  cases res with
  | error e =>
    refine ⟨?_, ?_⟩
    · exact build_error_trace env feePayer user sourceMint amount sameMintTimeout feeOptions
        e tr h
    · intro hfalse
      exact absurd hfalse (by simp [resultIsOk])
  | ok r =>
    obtain ⟨m1, tok, _, _, _, _, _, htr⟩ := build_ok_elim env feePayer user sourceMint amount
      sameMintTimeout feeOptions r tr h
    subst htr
    exact ⟨buildSuccessTrace_any_set env user sourceMint amount feeOptions,
           fun _ => buildSuccessTrace_getLast env user sourceMint amount feeOptions⟩

/-- Witness for C3 at a concrete successful build. -/
theorem c3_witness :
    buildWhirlpoolsSwapToSOL happyEnv "fp" "alice" "mintX" 1000000 3000 none
      = (Except.ok happyResult, happyTrace) ∧
    happyTrace.any (Event.isCacheSetFor ("swap/" ++ "alice" ++ "/" ++ "mintX"))
      = resultIsOk (Except.ok happyResult) ∧
    happyTrace.getLast? = some (Event.cacheSet ("swap/" ++ "alice" ++ "/" ++ "mintX")
      (CacheVal.num (happyEnv.now2 : Int))) := by
  have h := c3_guard_written_only_on_success happyEnv "fp" "alice" "mintX" 1000000 3000 none
    (Except.ok happyResult) happyTrace rfl
  exact ⟨rfl, h.1, h.2 rfl⟩

/-! ## C1 -/

/-- C1: when the ledger reports a fee for the first-pass message, the
final message returned by a successful build is the first-pass message
with its cleanup transfer raised from rent float plus platform fee to
rent float plus platform fee plus exactly that measured fee, every
other instruction unchanged. -/
theorem c1_second_pass_transfer (env : Env) (feePayer user sourceMint : String)
    (amount sameMintTimeout : Int) (feeOptions : Option FeeOptions)
    (r : BuildResult) (tr : List Event) (m1 m2 : MessageV0) (v : Nat)
    (hok : buildWhirlpoolsSwapToSOL env feePayer user sourceMint amount sameMintTimeout
      feeOptions = (Except.ok r, tr))
    (hm : swapMessages env feePayer user sourceMint amount.toNat feeOptions = some (m1, m2))
    (hv : env.feeFor m1 = some v) :
    r.transaction = m2 ∧
    ∃ pre post,
      m1.instructions = pre ++ [Instruction.transfer user feePayer
        (LAMPORTS_PER_ATA + platformFeeOf env.quoteResponse.outAmount)] ++ post ∧
      r.transaction.instructions = pre ++ [Instruction.transfer user feePayer
        (LAMPORTS_PER_ATA + platformFeeOf env.quoteResponse.outAmount + v)] ++ post := by
  obtain ⟨m1x, tok, hmx, _, _, _, _, _⟩ := build_ok_elim env feePayer user sourceMint amount
    sameMintTimeout feeOptions r tr hok
  have he := hm.symm.trans hmx
  injection he with he
  injection he with he1 he2
  obtain ⟨cbIxs, swapIx, hdec, h1eq, h2eq⟩ := swapMessages_elim env feePayer user sourceMint
    amount.toNat feeOptions m1 m2 hm
  refine ⟨he2.symm,
    cbIxs ++ [Instruction.createAssociatedTokenAccountIdempotent feePayer
      (getAssociatedTokenAddress NATIVE_MINT user) user NATIVE_MINT, swapIx,
      Instruction.closeAccount (getAssociatedTokenAddress NATIVE_MINT user) user user],
    (feeBurnInstructionOf feeOptions sourceMint user
      (burnFeeOf feeOptions amount.toNat)).toList, ?_, ?_⟩
  · rw [h1eq]
    simp [cleanupInstructions]
  · rw [← he2, h2eq, hv]
    simp [cleanupInstructions]

/-- Witness for C1 at a concrete successful build with measured fee
5000 lamports. -/
theorem c1_witness :
    buildWhirlpoolsSwapToSOL happyEnv "fp" "alice" "mintX" 1000000 3000 none
      = (Except.ok happyResult, happyTrace) ∧
    swapMessages happyEnv "fp" "alice" "mintX" (1000000 : Int).toNat none
      = some (happyM1, happyM2) ∧
    happyEnv.feeFor happyM1 = some 5000 ∧
    happyResult.transaction = happyM2 ∧
    (∃ pre post,
      happyM1.instructions = pre ++ [Instruction.transfer "alice" "fp"
        (LAMPORTS_PER_ATA + platformFeeOf happyEnv.quoteResponse.outAmount)] ++ post ∧
      happyResult.transaction.instructions = pre ++ [Instruction.transfer "alice" "fp"
        (LAMPORTS_PER_ATA + platformFeeOf happyEnv.quoteResponse.outAmount + 5000)] ++ post) := by
  have h := c1_second_pass_transfer happyEnv "fp" "alice" "mintX" 1000000 3000 none
    happyResult happyTrace happyM1 happyM2 5000 rfl rfl rfl
  exact ⟨rfl, rfl, rfl, h.1, h.2⟩

/-! ## C6 -/

/-- C6: every compiled message of a successful build carries the
instructions in the fixed order compute-budget instructions, idempotent
create-account for the native holding account paid by the fee payer,
swap instruction, close-account back to the user, lamport transfer from
the user to the fee payer, and, exactly when fee options are present
and the burn fee is positive, a final burn instruction debiting the
burn-fee amount from the source-asset account of the user. -/
theorem c6_instruction_order (env : Env) (feePayer user sourceMint : String)
    (amount sameMintTimeout : Int) (feeOptions : Option FeeOptions)
    (r : BuildResult) (tr : List Event) (m1 m2 : MessageV0)
    (hok : buildWhirlpoolsSwapToSOL env feePayer user sourceMint amount sameMintTimeout
      feeOptions = (Except.ok r, tr))
    (hm : swapMessages env feePayer user sourceMint amount.toNat feeOptions = some (m1, m2)) :
    r.transaction = m2 ∧
    (burnTailOf feeOptions sourceMint user amount.toNat =
      match feeOptions with
      | some fo =>
        if 0 < burnFeeOf (some fo) amount.toNat then
          [Instruction.burn fo.sourceAccount sourceMint user
            (burnFeeOf (some fo) amount.toNat).toNat]
        else []
      | none => []) ∧
    ∃ cbIxs swapIx,
      decodeBundle env.swapInstructions = some (cbIxs, swapIx) ∧
      m1.instructions = cbIxs ++
        [Instruction.createAssociatedTokenAccountIdempotent feePayer
           (getAssociatedTokenAddress NATIVE_MINT user) user NATIVE_MINT] ++
        [swapIx] ++
        [Instruction.closeAccount (getAssociatedTokenAddress NATIVE_MINT user) user user,
         Instruction.transfer user feePayer
           (LAMPORTS_PER_ATA + platformFeeOf env.quoteResponse.outAmount)] ++
        burnTailOf feeOptions sourceMint user amount.toNat ∧
      m2.instructions = cbIxs ++
        [Instruction.createAssociatedTokenAccountIdempotent feePayer
           (getAssociatedTokenAddress NATIVE_MINT user) user NATIVE_MINT] ++
        [swapIx] ++
        [Instruction.closeAccount (getAssociatedTokenAddress NATIVE_MINT user) user user,
         Instruction.transfer user feePayer
           (LAMPORTS_PER_ATA + platformFeeOf env.quoteResponse.outAmount +
             (env.feeFor m1).getD 0)] ++
        burnTailOf feeOptions sourceMint user amount.toNat := by
  obtain ⟨m1x, tok, hmx, _, _, _, _, _⟩ := build_ok_elim env feePayer user sourceMint amount
    sameMintTimeout feeOptions r tr hok
  have he := hm.symm.trans hmx
  injection he with he
  injection he with he1 he2
  obtain ⟨cbIxs, swapIx, hdec, h1eq, h2eq⟩ := swapMessages_elim env feePayer user sourceMint
    amount.toNat feeOptions m1 m2 hm
  refine ⟨he2.symm, ?_, cbIxs, swapIx, hdec, ?_, ?_⟩
  · cases feeOptions with
    | none => simp [burnTailOf, feeBurnInstructionOf]
    | some fo =>
      simp only [burnTailOf, feeBurnInstructionOf]
      split <;> simp
  · rw [h1eq]
    simp [cleanupInstructions, burnTailOf]
  · rw [h2eq]
    simp [cleanupInstructions, burnTailOf]

/-- Witness for C6 at a concrete successful build. -/
theorem c6_witness :
    buildWhirlpoolsSwapToSOL happyEnv "fp" "alice" "mintX" 1000000 3000 none
      = (Except.ok happyResult, happyTrace) ∧
    swapMessages happyEnv "fp" "alice" "mintX" (1000000 : Int).toNat none
      = some (happyM1, happyM2) ∧
    happyResult.transaction = happyM2 ∧
    (∃ cbIxs swapIx,
      decodeBundle happyEnv.swapInstructions = some (cbIxs, swapIx) ∧
      happyM1.instructions = cbIxs ++
        [Instruction.createAssociatedTokenAccountIdempotent "fp"
           (getAssociatedTokenAddress NATIVE_MINT "alice") "alice" NATIVE_MINT] ++
        [swapIx] ++
        [Instruction.closeAccount (getAssociatedTokenAddress NATIVE_MINT "alice")
           "alice" "alice",
         Instruction.transfer "alice" "fp"
           (LAMPORTS_PER_ATA + platformFeeOf happyEnv.quoteResponse.outAmount)] ++
        burnTailOf none "mintX" "alice" (1000000 : Int).toNat ∧
      happyM2.instructions = cbIxs ++
        [Instruction.createAssociatedTokenAccountIdempotent "fp"
           (getAssociatedTokenAddress NATIVE_MINT "alice") "alice" NATIVE_MINT] ++
        [swapIx] ++
        [Instruction.closeAccount (getAssociatedTokenAddress NATIVE_MINT "alice")
           "alice" "alice",
         Instruction.transfer "alice" "fp"
           (LAMPORTS_PER_ATA + platformFeeOf happyEnv.quoteResponse.outAmount +
             (happyEnv.feeFor happyM1).getD 0)] ++
        burnTailOf none "mintX" "alice" (1000000 : Int).toNat) := by
  have h := c6_instruction_order happyEnv "fp" "alice" "mintX" 1000000 3000 none
    happyResult happyTrace happyM1 happyM2 rfl rfl
  exact ⟨rfl, rfl, h.1, h.2.2⟩

/-! ## C9 -/

/-- C9: when the ledger fee query for the first-pass message reports no
value, a successful build returns the first-pass message itself: the
cleanup transfer carries the rent float plus platform fee only, and the
missing fee does not fail the build. -/
theorem c9_null_fee_defaults_to_zero (env : Env) (feePayer user sourceMint : String)
    (amount sameMintTimeout : Int) (feeOptions : Option FeeOptions)
    (r : BuildResult) (tr : List Event) (m1 m2 : MessageV0)
    (hok : buildWhirlpoolsSwapToSOL env feePayer user sourceMint amount sameMintTimeout
      feeOptions = (Except.ok r, tr))
    (hm : swapMessages env feePayer user sourceMint amount.toNat feeOptions = some (m1, m2))
    (hv : env.feeFor m1 = none) :
    r.transaction = m1 ∧
    ∃ pre post,
      r.transaction.instructions = pre ++ [Instruction.transfer user feePayer
        (LAMPORTS_PER_ATA + platformFeeOf env.quoteResponse.outAmount)] ++ post := by
  obtain ⟨m1x, tok, hmx, _, _, _, _, _⟩ := build_ok_elim env feePayer user sourceMint amount
    sameMintTimeout feeOptions r tr hok
  have he := hm.symm.trans hmx
  injection he with he
  injection he with he1 he2
  obtain ⟨cbIxs, swapIx, hdec, h1eq, h2eq⟩ := swapMessages_elim env feePayer user sourceMint
    amount.toNat feeOptions m1 m2 hm
  have hm2m1 : m2 = m1 := by
    rw [h2eq, hv, h1eq]
    simp
  refine ⟨by rw [← he2, hm2m1],
    cbIxs ++ [Instruction.createAssociatedTokenAccountIdempotent feePayer
      (getAssociatedTokenAddress NATIVE_MINT user) user NATIVE_MINT, swapIx,
      Instruction.closeAccount (getAssociatedTokenAddress NATIVE_MINT user) user user],
    (feeBurnInstructionOf feeOptions sourceMint user
      (burnFeeOf feeOptions amount.toNat)).toList, ?_⟩
  rw [← he2, hm2m1, h1eq]
  simp [cleanupInstructions]

/-- Witness for C9 at a concrete build whose fee query reports null. -/
theorem c9_witness :
    buildWhirlpoolsSwapToSOL nullFeeEnv "fp" "alice" "mintX" 1000000 3000 none
      = (Except.ok nullFeeResult, happyTrace) ∧
    swapMessages nullFeeEnv "fp" "alice" "mintX" (1000000 : Int).toNat none
      = some (happyM1, happyM1) ∧
    nullFeeEnv.feeFor happyM1 = none ∧
    nullFeeResult.transaction = happyM1 ∧
    (∃ pre post, nullFeeResult.transaction.instructions = pre ++
      [Instruction.transfer "alice" "fp"
        (LAMPORTS_PER_ATA + platformFeeOf nullFeeEnv.quoteResponse.outAmount)] ++ post) := by
  have h := c9_null_fee_defaults_to_zero nullFeeEnv "fp" "alice" "mintX" 1000000 3000 none
    nullFeeResult happyTrace happyM1 happyM1 rfl rfl rfl
  exact ⟨rfl, rfl, rfl, h.1, h.2⟩

/-! ## C8 -/

/-- C8: the build never reads the transferFeeBp field of the fee
options: two builds identical in every input except that field return
the same result and the same interaction trace. -/
theorem c8_transferFeeBp_noninterference (env : Env) (feePayer user sourceMint : String)
    (amount sameMintTimeout : Int) (fo : FeeOptions) (b : Int) :
    buildWhirlpoolsSwapToSOL env feePayer user sourceMint amount sameMintTimeout
      (some { fo with transferFeeBp := b })
      = buildWhirlpoolsSwapToSOL env feePayer user sourceMint amount sameMintTimeout
          (some fo) := by
  cases fo
  rfl

/-! ## C10 -/

/-- C10: with fee options whose burn basis points are positive but whose
burn fee truncates to zero, a successful build is identical to the build
with no fee options at all: no burn instruction is emitted and the
cleanup consists of exactly the close-account and transfer
instructions. -/
theorem c10_zero_burn_fee_no_burn_instruction (env : Env) (feePayer user sourceMint : String)
    (amount sameMintTimeout : Int) (fo : FeeOptions) (r : BuildResult) (tr : List Event)
    (h1 : 0 < fo.burnFeeBp)
    (h2 : Int.tdiv ((amount.toNat : Int) * fo.burnFeeBp) 10000 = 0)
    (h3 : 0 ≤ fo.amount)
    (hok : buildWhirlpoolsSwapToSOL env feePayer user sourceMint amount sameMintTimeout
      (some fo) = (Except.ok r, tr)) :
    buildWhirlpoolsSwapToSOL env feePayer user sourceMint amount sameMintTimeout (some fo)
      = buildWhirlpoolsSwapToSOL env feePayer user sourceMint amount sameMintTimeout none ∧
    r.transaction.instructions.any Instruction.isBurn = false ∧
    ∃ pre lam, r.transaction.instructions = pre ++
      [Instruction.closeAccount (getAssociatedTokenAddress NATIVE_MINT user) user user,
       Instruction.transfer user feePayer lam] := by
  have hbf : burnFeeOf (some fo) amount.toNat = 0 := by
    simp only [burnFeeOf]
    rw [if_pos h1.ne']
    exact h2
  have hfc : feeConfigInvalid (some fo) = false := by
    simp [feeConfigInvalid, not_lt.mpr h3]
  have hsm : swapMessages env feePayer user sourceMint amount.toNat (some fo)
      = swapMessages env feePayer user sourceMint amount.toNat none := by
    rcases hdec : decodeBundle env.swapInstructions with _ | ⟨cb, sw⟩
    · simp [swapMessages, hdec]
    · simp [swapMessages, hdec, hbf, feeBurnInstructionOf]
  have hbuild : buildWhirlpoolsSwapToSOL env feePayer user sourceMint amount sameMintTimeout
      (some fo)
      = buildWhirlpoolsSwapToSOL env feePayer user sourceMint amount sameMintTimeout none := by
    simp only [buildWhirlpoolsSwapToSOL]
    rw [hfc, hbf, hsm, show feeConfigInvalid none = false from rfl,
        show burnFeeOf none amount.toNat = (0 : Int) from rfl]
  rw [hbuild] at hok
  obtain ⟨m1x, tok, hmx, _, _, _, _, _⟩ := build_ok_elim env feePayer user sourceMint amount
    sameMintTimeout none r tr hok
  obtain ⟨cbIxs, swapIx, hdec, h1eq, h2eq⟩ := swapMessages_elim env feePayer user sourceMint
    amount.toNat none m1x r.transaction hmx
  obtain ⟨hcb, hsw⟩ := decodeBundle_no_burn env.swapInstructions cbIxs swapIx hdec
  refine ⟨hbuild, ?_, ?_⟩
  · rw [h2eq]
    simp [cleanupInstructions, feeBurnInstructionOf, Instruction.isBurn, List.any_eq_false]
    exact ⟨fun i hi => hcb i hi, hsw⟩
  · refine ⟨cbIxs ++ [Instruction.createAssociatedTokenAccountIdempotent feePayer
      (getAssociatedTokenAddress NATIVE_MINT user) user NATIVE_MINT, swapIx],
      LAMPORTS_PER_ATA + platformFeeOf env.quoteResponse.outAmount +
        (env.feeFor m1x).getD 0, ?_⟩
    rw [h2eq]
    simp [cleanupInstructions, feeBurnInstructionOf]

/-- Witness for C10 at amount 100 and burn basis points 3: the burn fee
truncates to zero and the build coincides with the no-fee build. -/
theorem c10_witness :
    (0 : Int) < tinyBurnFeeOptions.burnFeeBp ∧
    Int.tdiv (((100 : Int).toNat : Int) * tinyBurnFeeOptions.burnFeeBp) 10000 = 0 ∧
    (0 : Int) ≤ tinyBurnFeeOptions.amount ∧
    buildWhirlpoolsSwapToSOL happyEnv "fp" "alice" "mintX" 100 3000 (some tinyBurnFeeOptions)
      = buildWhirlpoolsSwapToSOL happyEnv "fp" "alice" "mintX" 100 3000 none ∧
    happyResult.transaction.instructions.any Instruction.isBurn = false ∧
    (∃ pre lam, happyResult.transaction.instructions = pre ++
      [Instruction.closeAccount (getAssociatedTokenAddress NATIVE_MINT "alice")
        "alice" "alice",
       Instruction.transfer "alice" "fp" lam]) := by
  have h := c10_zero_burn_fee_no_burn_instruction happyEnv "fp" "alice" "mintX" 100 3000
    tinyBurnFeeOptions happyResult
    ((buildWhirlpoolsSwapToSOL happyEnv "fp" "alice" "mintX" 100 3000
      (some tinyBurnFeeOptions)).2)
    (by decide) (by decide) (by decide) rfl
  exact ⟨by decide, by decide, by decide, h.1, h.2.1, h.2.2⟩

/-! ## C5 -/

/-- C5: the burn fee is the truncated basis-point product of the input
amount, the amount sent to the quote call is the input amount minus that
burn fee, and the platform fee folded into the cleanup transfer is the
half-up rounding of the quote outAmount times 250 over 10000, a function
of the outAmount of the quote and not of the input amount. -/
theorem c5_burn_and_platform_fee_independent (env : Env) (feePayer user sourceMint : String)
    (amount sameMintTimeout : Int) (fo : FeeOptions) (r : BuildResult) (tr : List Event)
    (hok : buildWhirlpoolsSwapToSOL env feePayer user sourceMint amount sameMintTimeout
      (some fo) = (Except.ok r, tr)) :
    burnFeeOf (some fo) amount.toNat
      = Int.tdiv ((amount.toNat : Int) * fo.burnFeeBp) 10000 ∧
    Event.fetchQuote sourceMint NATIVE_MINT
      ((amount.toNat : Int) - Int.tdiv ((amount.toNat : Int) * fo.burnFeeBp) 10000) 1000
      ∈ tr ∧
    platformFeeOf env.quoteResponse.outAmount
      = (env.quoteResponse.outAmount * 250 + 5000) / 10000 ∧
    ∃ netFee, Instruction.transfer user feePayer
      (LAMPORTS_PER_ATA + (env.quoteResponse.outAmount * 250 + 5000) / 10000 + netFee)
      ∈ r.transaction.instructions := by
  have hburn : burnFeeOf (some fo) amount.toNat
      = Int.tdiv ((amount.toNat : Int) * fo.burnFeeBp) 10000 := by
    by_cases hbp : fo.burnFeeBp = 0
    · simp [burnFeeOf, hbp]
    · simp [burnFeeOf, hbp]
  obtain ⟨m1x, tok, hmx, _, _, _, _, htr⟩ := build_ok_elim env feePayer user sourceMint amount
    sameMintTimeout (some fo) r tr hok
  obtain ⟨cbIxs, swapIx, hdec, h1eq, h2eq⟩ := swapMessages_elim env feePayer user sourceMint
    amount.toNat (some fo) m1x r.transaction hmx
  refine ⟨hburn, ?_, rfl, ?_⟩
  · subst htr
    rw [← hburn]
    cases hgc : genesisCached env <;> simp [buildSuccessTrace, hgc]
  · refine ⟨(env.feeFor m1x).getD 0, ?_⟩
    rw [h2eq]
    simp [cleanupInstructions, platformFeeOf, LAMPORTS_PER_ATA]

/-- Witness for C5 at the worked example of the specification: burn
basis points 100 and amount 10000 give burn fee 100 and quote request
amount 9900, and the platform fee comes from the quote outAmount. -/
theorem c5_witness :
    buildWhirlpoolsSwapToSOL happyEnv "fp" "alice" "mintX" 10000 3000
        (some percentBurnFeeOptions)
      = (Except.ok percentBurnResult,
         (buildWhirlpoolsSwapToSOL happyEnv "fp" "alice" "mintX" 10000 3000
           (some percentBurnFeeOptions)).2) ∧
    burnFeeOf (some percentBurnFeeOptions) (10000 : Int).toNat = 100 ∧
    Event.fetchQuote "mintX" NATIVE_MINT 9900 1000
      ∈ (buildWhirlpoolsSwapToSOL happyEnv "fp" "alice" "mintX" 10000 3000
          (some percentBurnFeeOptions)).2 ∧
    platformFeeOf happyEnv.quoteResponse.outAmount
      = (happyEnv.quoteResponse.outAmount * 250 + 5000) / 10000 ∧
    ∃ netFee, Instruction.transfer "alice" "fp"
      (LAMPORTS_PER_ATA + (happyEnv.quoteResponse.outAmount * 250 + 5000) / 10000 + netFee)
      ∈ percentBurnResult.transaction.instructions := by
  have h := c5_burn_and_platform_fee_independent happyEnv "fp" "alice" "mintX" 10000 3000
    percentBurnFeeOptions percentBurnResult
    ((buildWhirlpoolsSwapToSOL happyEnv "fp" "alice" "mintX" 10000 3000
      (some percentBurnFeeOptions)).2) rfl
  exact ⟨rfl, rfl, h.2.1, h.2.2.1, h.2.2.2⟩

/-! ## C7 -/

/-- C7: lookup-table resolution keeps exactly the addresses whose
account info is present, in their original order, and the set of
resolvable lookup tables never decides between success and failure of
the build when the simulator and the token signer do not discriminate
on the compiled message. -/
theorem c7_missing_lookup_tables_skipped (env : Env) (keys : List String)
    (feePayer user sourceMint : String) (amount sameMintTimeout : Int)
    (feeOptions : Option FeeOptions) (i1 i2 : String → Option String)
    (hsim : ∀ a b, env.simulate a = env.simulate b)
    (htok : ∀ a b, env.compileToken a = env.compileToken b) :
    (getAddressLookupTableAccounts env keys).map ALTAccount.key
      = keys.filter (fun k => (env.multiAccountInfo k).isSome) ∧
    errorOf (buildWhirlpoolsSwapToSOL { env with multiAccountInfo := i1 } feePayer user
        sourceMint amount sameMintTimeout feeOptions)
      = errorOf (buildWhirlpoolsSwapToSOL { env with multiAccountInfo := i2 } feePayer user
          sourceMint amount sameMintTimeout feeOptions) := by
  constructor
  · induction keys with
    | nil => rfl
    | cons k ks ih =>
      cases hk : env.multiAccountInfo k <;>
        simp [getAddressLookupTableAccounts, List.filterMap_cons, hk] <;>
        simpa [getAddressLookupTableAccounts] using ih
  · have hsimC : ∀ m, env.simulate m = env.simulate happyM1 := fun m => hsim m happyM1
    have htokC : ∀ m, env.compileToken m = env.compileToken happyM1 :=
      fun m => htok m happyM1
    have p1 : ∀ i : String → Option String,
        resolvedGenesisHash { env with multiAccountInfo := i } = resolvedGenesisHash env :=
      fun _ => rfl
    have p2 : ∀ i : String → Option String,
        genesisCached { env with multiAccountInfo := i } = genesisCached env := fun _ => rfl
    have p3 : ∀ (i : String → Option String) k t,
        rateGuardTriggered { env with multiAccountInfo := i } k t
          = rateGuardTriggered env k t := fun _ _ _ => rfl
    simp only [buildWhirlpoolsSwapToSOL, swapMessages, p1, p2, p3, hsimC, htokC]
    rcases hdec : decodeBundle env.swapInstructions with _ | ⟨cb, sw⟩ <;>
      simp only [hdec]
    by_cases h1 : isMainnetBetaCluster (resolvedGenesisHash env) = false
    · simp [h1, errorOf]
    · simp only [if_neg h1]
      by_cases h2 : amount ≤ 0
      · simp [h2, errorOf]
      · simp only [if_neg h2]
        by_cases h3 : feeConfigInvalid feeOptions = true
        · simp [h3, errorOf]
        · simp only [if_neg h3]
          by_cases h4 : rateGuardTriggered env ("swap/" ++ user ++ "/" ++ sourceMint)
              sameMintTimeout = true
          · simp [h4, errorOf]
          · simp only [if_neg h4]
            by_cases h5 : (env.accountInfo
                (getAssociatedTokenAddress NATIVE_MINT user)).isSome = true
            · simp [h5, errorOf]
            · simp only [if_neg h5]
              by_cases h6 : routingReportedError env.swapInstructions = true
              · simp [h6, errorOf]
              · simp only [if_neg h6]
                by_cases h7 : env.simulate happyM1 = false
                · simp [h7, errorOf]
                · simp only [if_neg h7]
                  rcases htk : env.compileToken happyM1 with _ | tk <;>
                    simp [htk, errorOf]

/-- Witness for C7: two absent keys resolve to the empty lookup set and
changing which lookup tables resolve does not change the outcome. -/
theorem c7_witness :
    (getAddressLookupTableAccounts happyEnv ["k1", "k2"]).map ALTAccount.key
      = ["k1", "k2"].filter (fun k => (happyEnv.multiAccountInfo k).isSome) ∧
    errorOf (buildWhirlpoolsSwapToSOL { happyEnv with multiAccountInfo := fun _ => none }
        "fp" "alice" "mintX" 1000000 3000 none)
      = errorOf (buildWhirlpoolsSwapToSOL
          { happyEnv with multiAccountInfo := fun _ => some "tableData" }
          "fp" "alice" "mintX" 1000000 3000 none) :=
  c7_missing_lookup_tables_skipped happyEnv ["k1", "k2"] "fp" "alice" "mintX" 1000000 3000
    none (fun _ => none) (fun _ => some "tableData") (fun _ _ => rfl) (fun _ _ => rfl)

end Octane
